import Mathlib

/-!
Verification development for the research-assistant bot's task intent engine.

The Python sources (app/task_parser.py, app/utils.py, app/services/telegram_bot.py,
app/services/task_service.py) are shallowly embedded below.  Strings are modelled as
Lean strings (lists of unicode code points, matching Python's str); machine-level
concerns do not arise.  Python's str.lower / str.capitalize are modelled for the
character repertoire actually used by the code (ASCII plus the Turkish letters
appearing in the keyword lists).  The third-party dateparser.search_dates call is
not part of the repository; it is modelled as an explicit oracle parameter
(a function from the text to the optional (matched phrase, instant) pair that the
code reads out of its result).  Timezone-awareness is abstracted away: an instant
is a plain calendar datetime, and Python's bounded year range (1..9999) is
idealized as unbounded.

A central point of the embedding: the Python source writes several regexes as raw
strings with DOUBLED backslashes, e.g. re.search(r"#?(\\d+)", text).  In a raw
string that pattern means: optional '#', then a literal backslash, then one or
more literal letters 'd' - not a digit run.  The embedding reproduces exactly
that behaviour (see buggyIdGroup, hashDigitGo, goalPat, isKeepChar below).
-/

namespace RA

/-! ### Python character-level helpers -/

/-- Python regex \s over the inputs in scope: space, tab, newline, CR, VT, FF. -/
def isPySpace (c : Char) : Bool :=
  c.toNat = 32 || c.toNat = 9 || c.toNat = 10 || c.toNat = 13 || c.toNat = 11 || c.toNat = 12

/-- ASCII decimal digit, as matched by a (correctly written) regex \d. -/
def isPyDigit (c : Char) : Bool :=
  48 ≤ c.toNat && c.toNat ≤ 57

/-- Python str.lower for one character, over the repertoire used by the bot:
ASCII A-Z and the Turkish uppercase letters of the keyword lists.  Dotted
uppercase I (U+0130) lowers, as in Python, to the two code points
i (U+0069) + combining dot above (U+0307), hence the list-valued result. -/
def lowerChars (c : Char) : List Char :=
  if 65 ≤ c.toNat && c.toNat ≤ 90 then [Char.ofNat (c.toNat + 32)]
  else if c.toNat = 199 then [Char.ofNat 231]   -- Ç → ç
  else if c.toNat = 286 then [Char.ofNat 287]   -- Ğ → ğ
  else if c.toNat = 304 then [Char.ofNat 105, Char.ofNat 775]  -- İ → i + combining dot
  else if c.toNat = 214 then [Char.ofNat 246]   -- Ö → ö
  else if c.toNat = 350 then [Char.ofNat 351]   -- Ş → ş
  else if c.toNat = 220 then [Char.ofNat 252]   -- Ü → ü
  else [c]

/-- Single-character lowering (used where a 1-to-1 map suffices, e.g. the
IGNORECASE comparison and str.capitalize's lowering of the tail). -/
def charLower1 (c : Char) : Char :=
  if 65 ≤ c.toNat && c.toNat ≤ 90 then Char.ofNat (c.toNat + 32)
  else if c.toNat = 199 then Char.ofNat 231
  else if c.toNat = 286 then Char.ofNat 287
  else if c.toNat = 304 then Char.ofNat 105
  else if c.toNat = 214 then Char.ofNat 246
  else if c.toNat = 350 then Char.ofNat 351
  else if c.toNat = 220 then Char.ofNat 252
  else c

/-- Uppercase map for the first character of Python str.capitalize, over the
repertoire in scope.  Note Python's locale-independent rule: both i and ı map
to plain I. -/
def upperChar (c : Char) : Char :=
  if 97 ≤ c.toNat && c.toNat ≤ 122 then Char.ofNat (c.toNat - 32)
  else if c.toNat = 231 then Char.ofNat 199
  else if c.toNat = 287 then Char.ofNat 286
  else if c.toNat = 305 then Char.ofNat 73    -- ı → I
  else if c.toNat = 246 then Char.ofNat 214
  else if c.toNat = 351 then Char.ofNat 350
  else if c.toNat = 252 then Char.ofNat 220
  else c

/-- Python str.lower on a character list. -/
def lowerList : List Char → List Char
  | [] => []
  | c :: cs => lowerChars c ++ lowerList cs

/-- Python str.lower on a string. -/
def strLower (s : String) : String := ⟨lowerList s.data⟩

/-- Python regex \w over the repertoire in scope: ASCII alphanumerics,
underscore, and the Turkish letters of the keyword lists. -/
def isWordChar (c : Char) : Bool :=
  (48 ≤ c.toNat && c.toNat ≤ 57) || (65 ≤ c.toNat && c.toNat ≤ 90) ||
  (97 ≤ c.toNat && c.toNat ≤ 122) || c.toNat = 95 ||
  c.toNat = 231 || c.toNat = 287 || c.toNat = 305 || c.toNat = 246 ||
  c.toNat = 351 || c.toNat = 252 || c.toNat = 199 || c.toNat = 286 ||
  c.toNat = 304 || c.toNat = 214 || c.toNat = 350 || c.toNat = 220

/-- The character class of the source's token splitter.  The source writes
re.split(r"[^\\wçğıöşüÇĞİÖŞÜ]+", ...): inside a raw string, \\w is a literal
backslash plus the letter w, so the kept characters are exactly backslash,
the letter w, and the listed Turkish letters - NOT general word characters. -/
def isKeepChar (c : Char) : Bool :=
  c.toNat = 92 || c.toNat = 119 ||
  c.toNat = 231 || c.toNat = 287 || c.toNat = 305 || c.toNat = 246 ||
  c.toNat = 351 || c.toNat = 252 || c.toNat = 199 || c.toNat = 286 ||
  c.toNat = 304 || c.toNat = 214 || c.toNat = 350 || c.toNat = 220

/-- Python str.strip() on a character list. -/
def pyStripList (l : List Char) : List Char :=
  ((l.dropWhile isPySpace).reverse.dropWhile isPySpace).reverse

/-- Python str.strip() on a string. -/
def pyStrip (s : String) : String := ⟨pyStripList s.data⟩

/-- One pass of re.sub(r"\s+", " ", _): collapse every whitespace run to one
space.  The boolean flag records whether the previous character was part of a
whitespace run. -/
def collapseGo : Bool → List Char → List Char
  | _, [] => []
  | inSp, c :: cs =>
    if isPySpace c then
      if inSp then collapseGo true cs else ' ' :: collapseGo true cs
    else c :: collapseGo false cs

/-- re.sub(r"\s+", " ", s). -/
def collapseWs (s : String) : String := ⟨collapseGo false s.data⟩

/-- List-of-characters prefix test (structural, avoids BEq subtleties). -/
def startsWithChars : List Char → List Char → Bool
  | [], _ => true
  | _ :: _, [] => false
  | x :: xs, y :: ys => x == y && startsWithChars xs ys

/-- Case-insensitive prefix test: the pattern (first argument) is given in
lowercase, the text character is lowered before comparison (regex IGNORECASE). -/
def startsWithCIChars : List Char → List Char → Bool
  | [], _ => true
  | _ :: _, [] => false
  | x :: xs, y :: ys => (x == y || x == charLower1 y) && startsWithCIChars xs ys

/-- Contiguous-substring test on character lists (Python's "needle in hay"). -/
def isInfixChars (n : List Char) : List Char → Bool
  | [] => n.isEmpty
  | c :: cs => startsWithChars n (c :: cs) || isInfixChars n cs

/-- Python "needle in hay" on strings. -/
def containsStr (hay needle : String) : Bool := isInfixChars needle.data hay.data

/-- Worker for Python str.replace with a nonempty pattern: non-overlapping,
left-to-right.  Fuel bounds the number of scan steps; each step consumes at
least one character, so fuel = length of the list suffices. -/
def replaceGo (old new : List Char) : Nat → List Char → List Char
  | _, [] => []
  | 0, l => l
  | f + 1, c :: cs =>
    if startsWithChars old (c :: cs) then
      new ++ replaceGo old new f ((c :: cs).drop old.length)
    else c :: replaceGo old new f cs

/-- Python str.replace(old, new): for an empty old, Python inserts new between
every character and at both ends. -/
def pyReplace (s old new : String) : String :=
  if old.data.isEmpty then
    ⟨s.data.foldr (fun c acc => new.data ++ (c :: acc)) new.data⟩
  else ⟨replaceGo old.data new.data s.data.length s.data⟩

/-- Last character of a list with a default. -/
def lastD (l : List Char) (dflt : Char) : Char :=
  match l.reverse with
  | [] => dflt
  | c :: _ => c

/-- Word-boundary test to the right of a match: end of string or a non-word
character. -/
def boundaryAfter : List Char → Bool
  | [] => true
  | d :: _ => !isWordChar d

/-- First alternative of the regex alternation that matches at this position
with a word boundary after it (regex alternation is ordered). -/
def wordHit (ci : Bool) (words : List String) (l : List Char) : Option String :=
  words.find? (fun w =>
    !w.data.isEmpty &&
    (if ci then startsWithCIChars w.data l else startsWithChars w.data l) &&
    boundaryAfter (l.drop w.data.length))

/-- Worker for re.sub(r"\b(w1|w2|...)\b", repl, _): scan left to right; at a
position whose left context is a word boundary (bOK), try the alternatives in
order and replace the first hit.  All alternatives in the source start and end
with word characters, so \b before/after reduces to the neighbour being a
non-word character or the string edge.  Fuel: each step consumes at least one
character (matched words are nonempty). -/
def wordSubGo (ci : Bool) (words : List String) (repl : List Char) :
    Nat → Bool → List Char → List Char
  | _, _, [] => []
  | 0, _, l => l
  | f + 1, bOK, c :: cs =>
    match (if bOK then wordHit ci words (c :: cs) else none) with
    | some w =>
      let consumed := (c :: cs).take w.data.length
      let lastc := lastD consumed c
      repl ++ wordSubGo ci words repl f (!isWordChar lastc) ((c :: cs).drop w.data.length)
    | none => c :: wordSubGo ci words repl f (!isWordChar c) cs

/-- re.sub over a word-boundary-delimited alternation (ci: IGNORECASE). -/
def wordSub (ci : Bool) (words : List String) (repl : String) (s : String) : String :=
  ⟨wordSubGo ci words repl.data (s.data.length + 1) true s.data⟩

/-- Worker for re.sub(r"#?\\d+", " ", _).  In the raw string the pattern is:
optional '#', a literal backslash, then one or more literal letters d.  It
never matches an actual digit token. -/
def hashDigitGo : Nat → List Char → List Char
  | _, [] => []
  | 0, l => l
  | f + 1, c :: cs =>
    if c.toNat = 35 then
      match cs with
      | b :: d :: rest =>
        if b.toNat = 92 && d.toNat = 100 then
          ' ' :: hashDigitGo f (rest.dropWhile (fun x => x.toNat = 100))
        else c :: hashDigitGo f cs
      | _ => c :: hashDigitGo f cs
    else if c.toNat = 92 then
      match cs with
      | d :: rest =>
        if d.toNat = 100 then
          ' ' :: hashDigitGo f (rest.dropWhile (fun x => x.toNat = 100))
        else c :: hashDigitGo f cs
      | [] => [c]
    else c :: hashDigitGo f cs

/-- re.sub(r"#?\\d+", " ", s) with the doubled backslash of the source. -/
def buggyHashDigitSub (s : String) : String := ⟨hashDigitGo (s.data.length + 1) s.data⟩

/-- Group 1 of re.search(r"#?(\\d+)", text) with the doubled backslash of the
source: the first literal backslash followed by at least one letter d, the
group being the backslash plus the maximal d-run.  (The optional '#' does not
change the group.)  Returns none when no such occurrence exists - in
particular for every text containing a digit token but no backslash. -/
def buggyIdGroup : List Char → Option (List Char)
  | [] => none
  | c :: cs =>
    if c.toNat = 92 then
      match cs with
      | d :: _ =>
        if d.toNat = 100 then some (c :: cs.takeWhile (fun x => x.toNat = 100))
        else buggyIdGroup cs
      | [] => none
    else buggyIdGroup cs

/-- The literal characters matched by re.search(r"(20\\d{2})", text): the two
characters 2 0, a literal backslash, then the letter d exactly twice. -/
def goalPat : List Char := ['2', '0', Char.ofNat 92, 'd', 'd']

/-- Group 1 of re.search(r"(20\\d{2})", text): present iff the text contains
the five-character sequence 2 0 backslash d d. -/
def goalGroup (s : String) : Option String :=
  if isInfixChars goalPat s.data then some ⟨goalPat⟩ else none

/-- Numeric value of an ASCII digit run. -/
def digitsVal (l : List Char) : Nat :=
  l.foldl (fun a c => a * 10 + (c.toNat - 48)) 0

/-- Python int(str): strip whitespace, optional sign, then a nonempty ASCII
digit run; anything else raises ValueError, modelled as none.  (Python's
underscore digit grouping is not modelled; no input in scope uses it.) -/
def pyInt (s : String) : Option Int :=
  let l := pyStripList s.data
  match l with
  | [] => none
  | c :: rest =>
    if c.toNat = 45 then
      if !rest.isEmpty && rest.all isPyDigit then some (-(digitsVal rest : Int)) else none
    else if c.toNat = 43 then
      if !rest.isEmpty && rest.all isPyDigit then some ((digitsVal rest : Int)) else none
    else
      if (c :: rest).all isPyDigit then some ((digitsVal (c :: rest) : Int)) else none

/-- Maximal runs of kept characters (the pieces of re.split on the complement
class); empty pieces are dropped. -/
def runsGo (p : Char → Bool) : List Char → List Char → List (List Char)
  | [], cur => if cur.isEmpty then [] else [cur.reverse]
  | c :: cs, cur =>
    if p c then runsGo p cs (c :: cur)
    else if cur.isEmpty then runsGo p cs [] else cur.reverse :: runsGo p cs []

/-- First-occurrence deduplication (models building a Python set; only
membership and cardinality of intersections are ever used). -/
def dedupGo : List String → List String → List String
  | [], _ => []
  | s :: rest, seen =>
    if seen.contains s then dedupGo rest seen else s :: dedupGo rest (s :: seen)

/-- _tokenize of the source: lowercase, split on the (buggy, see isKeepChar)
character class, keep pieces longer than 2, as a set. -/
def tokenize (s : String) : List String :=
  dedupGo (((runsGo isKeepChar (lowerList s.data) []).filter
    (fun r => 2 < r.length)).map (fun r => (⟨r⟩ : String))) []

/-- Size of the intersection of two token sets (first argument deduplicated). -/
def interCount (a b : List String) : Nat :=
  (a.filter (fun t => b.contains t)).length

/-! ### Calendar datetimes (app/utils.py)

A timezone-aware Python datetime is modelled as a plain proleptic-Gregorian
calendar datetime; the timezone is a constant of the deployment and never
varies inside the code under study, and datetime arithmetic on aware values is
wall-clock arithmetic.  Python's year range 1..9999 is idealized as unbounded. -/

structure DT where
  y : Nat
  m : Nat
  d : Nat
  hh : Nat
  mi : Nat
  ss : Nat
  us : Nat
deriving DecidableEq, Repr

/-- Gregorian leap year. -/
def isLeap (y : Nat) : Bool := (y % 4 == 0 && y % 100 != 0) || (y % 400 == 0)

/-- calendar days in a month (the catch-all branch is never reached on valid
dates). -/
def daysInMonth (y m : Nat) : Nat :=
  match m with
  | 1 => 31 | 2 => if isLeap y then 29 else 28 | 3 => 31 | 4 => 30
  | 5 => 31 | 6 => 30 | 7 => 31 | 8 => 31 | 9 => 30 | 10 => 31
  | 11 => 30 | 12 => 31 | _ => 30

/-- Days in the year before the first of the given month. -/
def daysBeforeMonth (y m : Nat) : Nat :=
  (match m with
   | 1 => 0 | 2 => 31 | 3 => 59 | 4 => 90 | 5 => 120 | 6 => 151
   | 7 => 181 | 8 => 212 | 9 => 243 | 10 => 273 | 11 => 304 | 12 => 334
   | _ => 0) +
  (if 3 ≤ m && isLeap y then 1 else 0)

/-- Days before January 1st of the given year (proleptic Gregorian). -/
def daysBeforeYear (y : Nat) : Nat :=
  365 * (y - 1) + (y - 1) / 4 - (y - 1) / 100 + (y - 1) / 400

/-- Absolute day index; 0001-01-01 is day 0 (Python's toordinal() minus 1). -/
def dayNumber (t : DT) : Nat := daysBeforeYear t.y + daysBeforeMonth t.y t.m + (t.d - 1)

/-- Python datetime.weekday(): 0 = Monday .. 6 = Sunday.  Day 0 (0001-01-01)
is a Monday, so the weekday is the day index mod 7. -/
def weekday (t : DT) : Nat := dayNumber t % 7

/-- A well-formed calendar datetime. -/
def Valid (t : DT) : Prop :=
  1 ≤ t.y ∧ 1 ≤ t.m ∧ t.m ≤ 12 ∧ 1 ≤ t.d ∧ t.d ≤ daysInMonth t.y t.m ∧
  t.hh ≤ 23 ∧ t.mi ≤ 59 ∧ t.ss ≤ 59 ∧ t.us ≤ 999999

instance (t : DT) : Decidable (Valid t) := by unfold Valid; infer_instance

/-- The next calendar day. -/
def nextDay (t : DT) : DT :=
  if t.d < daysInMonth t.y t.m then { t with d := t.d + 1 }
  else if t.m < 12 then { t with m := t.m + 1, d := 1 }
  else { t with y := t.y + 1, m := 1, d := 1 }

/-- base + timedelta(days = k) (wall-clock, time fields untouched). -/
def addDays (t : DT) : Nat → DT
  | 0 => t
  | Nat.succ k => addDays (nextDay t) k

/-- end_of_week of app/utils.py: days_ahead = 6 - base.weekday(); the result is
base + days_ahead days with the time replaced by 23:59:00.000000. -/
def end_of_week (base : DT) : DT :=
  let e := addDays base (6 - weekday base)
  { e with hh := 23, mi := 59, ss := 0, us := 0 }

/-- The previous calendar day. -/
def prevDay (t : DT) : DT :=
  if 1 < t.d then { t with d := t.d - 1 }
  else if 1 < t.m then { t with m := t.m - 1, d := daysInMonth t.y (t.m - 1) }
  else { t with y := t.y - 1, m := 12, d := 31 }

/-- t - timedelta(minutes = 1) (seconds and microseconds carried unchanged). -/
def subOneMinute (t : DT) : DT :=
  if 0 < t.mi then { t with mi := t.mi - 1 }
  else if 0 < t.hh then { t with hh := t.hh - 1, mi := 59 }
  else
    let p := prevDay t
    { p with hh := 23, mi := 59 }

/-- end_of_month of app/utils.py, exactly as written: replace month/day to the
first of the next month - note Python's datetime.replace KEEPS the time of
day - subtract one minute, then zero seconds and microseconds. -/
def end_of_month (base : DT) : DT :=
  let nm :=
    if base.m = 12 then { base with y := base.y + 1, m := 1, d := 1 }
    else { base with m := base.m + 1, d := 1 }
  let e := subOneMinute nm
  { e with ss := 0, us := 0 }

/-- Linearization of an instant, standing in for the to_utc_iso timestamp
string stored in created_at columns: it is strictly monotone in time, which is
all the ORDER BY created_at DESC read relies on. -/
def dtKey (t : DT) : Nat :=
  (((dayNumber t * 24 + t.hh) * 60 + t.mi) * 60 + t.ss) * 1000000 + t.us

/-! ### app/task_parser.py -/

def TASK_KEYWORDS : List String :=
  ["hatırlat", "hatirlat", "toplantı", "toplanti", "deadline", "bitir", "yap",
   "görev", "gorev", "ödev", "odev", "tez", "thesis", "proposal", "sunum",
   "makale", "okuma", "okumak"]

/-- looks_like_task: any task keyword is a substring of the lowercased text. -/
def looks_like_task (text : String) : Bool :=
  TASK_KEYWORDS.any (fun k => containsStr (strLower text) k)

/-- _strip_filler: remove the word-bounded filler alternation case-insensitively
(re.IGNORECASE), collapse whitespace, strip. -/
def strip_filler (text : String) : String :=
  pyStrip (collapseWs (wordSub true ["hatırlat", "hatirlat", "lütfen", "lutfen"] "" text))

/-- parse_task_text.  The dateparser.search_dates call is an external library;
sd is the oracle returning what the code reads from it: the LAST (phrase, dt)
pair of the search result, or none when nothing was found.  The tzinfo-attach
step of the source has no content in this tz-less model. -/
def parse_task_text (sd : String → Option (String × DT)) (text : String) (now : DT) :
    String × Option DT :=
  let found := sd text
  let cleaned := match found with
    | some pd => pyStrip (pyReplace text pd.1 " ")
    | none => text
  let due0 : Option DT := match found with
    | some pd => some pd.2
    | none => none
  let lowered := strLower text
  let due := match due0 with
    | some d => some d
    | none =>
      if containsStr lowered "bu hafta" || containsStr lowered "this week" then
        some (end_of_week now)
      else if containsStr lowered "bu ay" || containsStr lowered "this month" then
        some (end_of_month now)
      else none
  let title := if cleaned.data.isEmpty then pyStrip text else strip_filler cleaned
  (title, due)

/-- Minutes per unit of parse_duration's branches (dakika/dk → 1, saat → 60,
gün/gun → 60*24). -/
def unitFactor (u : String) : Nat :=
  if u = "dakika" || u = "dk" then 1
  else if u = "saat" then 60
  else if u = "gün" || u = "gun" then 1440
  else 0

/-- The ordered alternation (dakika|dk|saat|gün|gun) of parse_duration,
returning the factor of the first alternative that is a prefix here. -/
def unitsMatch (l : List Char) : Option Nat :=
  if startsWithChars "dakika".data l then some 1
  else if startsWithChars "dk".data l then some 1
  else if startsWithChars "saat".data l then some 60
  else if startsWithChars "gün".data l then some 1440
  else if startsWithChars "gun".data l then some 1440
  else none

/-- One attempt of re.search(r"(\d+)\s*(dakika|dk|saat|gün|gun)", _) at the
current position: a nonempty greedy digit run, a greedy whitespace run, then
the unit alternation.  (No backtracking is needed: units never start with a
digit or a space.) -/
def tryPair (l : List Char) : Option Nat :=
  match l with
  | [] => none
  | c :: _ =>
    if isPyDigit c then
      match unitsMatch ((l.dropWhile isPyDigit).dropWhile isPySpace) with
      | some f => some (f * digitsVal (l.takeWhile isPyDigit))
      | none => none
    else none

/-- Leftmost-match scan of the duration regex. -/
def durScan : List Char → Option Nat
  | [] => none
  | c :: cs =>
    match tryPair (c :: cs) with
    | some v => some v
    | none => durScan cs

/-- parse_duration: minutes of the first integer-unit pair of the lowercased
text, none when absent. -/
def parse_duration (s : String) : Option Nat := durScan (strLower s).data

/-! ### app/services/telegram_bot.py -/

/-- Suffix test on character lists. -/
def endsWithChars (suf l : List Char) : Bool := startsWithChars suf.reverse l.reverse

/-- Python str.capitalize: first character title-cased, the rest lowered
(1-to-1 over the repertoire in scope). -/
def pyCapitalize (s : String) : String :=
  match s.data with
  | [] => ""
  | c :: cs => ⟨upperChar c :: cs.map charLower1⟩

/-- The suffix-rewrite table of _normalize_task_title, in source order
(Python dicts preserve insertion order and the loop applies str.replace
sequentially). -/
def titleReplacements : List (String × String) :=
  [("yapacağımı", "yapılacak"), ("yapacağım", "yapılacak"),
   ("gideceğimi", "gidilecek"), ("gideceğim", "gidilecek"),
   ("tamamlayacağımı", "tamamlanacak"), ("tamamlayacağım", "tamamlanacak"),
   ("hazırlayacağımı", "hazırlanacak"), ("hazırlayacağım", "hazırlanacak"),
   ("göndereceğimi", "gönderilecek"), ("göndereceğim", "gönderilecek")]

/-- _normalize_task_title, translated line by line.  Note the placeholder
"Görev." is returned only when the stripped INPUT is empty; the later
stripping steps can leave an empty string, which is returned as such. -/
def normalize_task_title (title : String) : String :=
  let text := pyStrip title
  if text.data.isEmpty then "Görev."
  else
    let l0 := strLower text
    let l1 := wordSub false
      ["bana", "beni", "bize", "bizim", "lütfen", "lutfen", "hatırlat", "hatirlat"] " " l0
    let l2 := wordSub false
      ["şunu", "şu", "bunu", "bana", "beni", "hatırlatma", "hatirlatma", "görev", "görevi"]
      " " l1
    let l3 := pyStrip (collapseWs l2)
    let l4 := titleReplacements.foldl (fun acc p => pyReplace acc p.1 p.2) l3
    let l5 :=
      if endsWithChars "yapmak".data l4.data then
        (pyStrip ⟨l4.data.take (l4.data.length - "yapmak".data.length)⟩) ++ " yapılacak"
      else l4
    let l6 :=
      if endsWithChars "gitmek".data l5.data then
        (pyStrip ⟨l5.data.take (l5.data.length - "gitmek".data.length)⟩) ++ " gidilecek"
      else l5
    let c := pyCapitalize (pyStrip l6)
    if !c.data.isEmpty && !(['.', '!', '?'].contains (lastD c.data ' ')) then c ++ "."
    else c

/-- _extract_action_query: lowercase, str.replace each action word by a space,
remove the word-bounded reference alternation, apply the (dead, see
hashDigitGo) id-marker substitution, collapse whitespace, strip. -/
def extract_action_query (text : String) (actionWords : List String) : String :=
  let c0 := strLower text
  let c1 := actionWords.foldl (fun acc w => pyReplace acc w " ") c0
  let c2 := wordSub false
    ["şu", "bunu", "şunu", "bu", "o", "hatırlatma", "hatirlatma", "görev", "görevi",
     "hatırlatmayı", "hatirlatmayi"] " " c1
  let c3 := buggyHashDigitSub c2
  pyStrip (collapseWs c3)

/-- A row of the tasks table as consumed here: id, title, optional due
timestamp (only presence/absence of due_at is ever inspected). -/
structure TaskRec where
  id : Nat
  title : String
  dueAt : Option Nat
deriving DecidableEq, Repr

/-- Python's sort key (-score, due_at is None): true iff a strictly precedes b. -/
def keyLT (a b : Nat × TaskRec) : Bool :=
  b.1 < a.1 || (a.1 == b.1 && (!a.2.dueAt.isNone && b.2.dueAt.isNone))

/-- Stable insertion: place x after every element strictly preceding it, hence
before the first element with an equal-or-later key - the same order as
Python's stable list.sort. -/
def insertStable {α : Type} (lt : α → α → Bool) (x : α) : List α → List α
  | [] => [x]
  | y :: ys => if lt y x then y :: insertStable lt x ys else x :: y :: ys

/-- Stable insertion sort (agrees with Python's stable sort for a total
preorder key). -/
def insertionSort {α : Type} (lt : α → α → Bool) : List α → List α
  | [] => []
  | x :: xs => insertStable lt x (insertionSort lt xs)

/-- _find_task_candidates, with the fetched open-task list passed in (the
source fetches list_tasks(limit=50) from the store; the engine consumes the
fetched sequence). -/
def find_task_candidates (query : String) (tasks : List TaskRec) (limit : Nat) :
    List TaskRec :=
  if tasks.isEmpty then []
  else if query.data.isEmpty then tasks.take limit
  else
    let qTokens := tokenize query
    let scored := tasks.filterMap (fun t =>
      let tl := strLower t.title
      let s := (if containsStr tl query then 3 else 0) + interCount qTokens (tokenize tl)
      if 0 < s then some (s, t) else none)
    ((insertionSort keyLT scored).take limit).map (fun p => p.2)

/-- A row of the pending_tasks table. -/
structure PendingRec where
  id : Nat
  chatId : String
  title : String
  createdAt : Nat
deriving DecidableEq, Repr

/-- The pending_tasks table plus the autoincrement counter. -/
structure St where
  recs : List PendingRec
  nextId : Nat
deriving DecidableEq, Repr

/-- add_pending_task: a plain INSERT - the new row is appended, nothing is
replaced or deleted. -/
def add_pending_task (st : St) (chat title : String) (createdAt : Nat) : St :=
  ⟨st.recs ++ [⟨st.nextId, chat, title, createdAt⟩], st.nextId + 1⟩

/-- get_pending_task: SELECT ... WHERE chat_id = ? ORDER BY created_at DESC
LIMIT 1.  The fold keeps the record with the largest created_at; SQL leaves
the order of exact ties unspecified, and every scenario below uses distinct
timestamps. -/
def get_pending_task (st : St) (chat : String) : Option PendingRec :=
  (st.recs.filter (fun r => r.chatId == chat)).foldl
    (fun acc r =>
      match acc with
      | none => some r
      | some b => if b.createdAt < r.createdAt then some r else some b)
    none

/-- clear_pending_task: DELETE ... WHERE id = ?. -/
def clear_pending_task (st : St) (pid : Nat) : St :=
  ⟨st.recs.filter (fun r => r.id != pid), st.nextId⟩

def is_summary_request (t : String) : Bool :=
  ["özet", "ozet", "summary", "rapor", "durum"].any (fun w => containsStr (strLower t) w)

def is_delete_request (t : String) : Bool :=
  ["sil", "kaldır", "iptal et", "silmek"].any (fun w => containsStr (strLower t) w)

def is_complete_request (t : String) : Bool :=
  ["tamamlandı", "tamamladım", "tamamla", "bitirdim", "bitti"].any
    (fun w => containsStr (strLower t) w)

/-- The action-word lists passed to _extract_action_query in the two branches. -/
def DELETE_WORDS : List String := ["sil", "kaldır", "iptal et", "silmek"]

def COMPLETE_WORDS : List String := ["tamamla", "tamamlandı", "tamamladım", "bitirdim", "bitti"]

/-- The observable outcome of one handle_message call.  Constructors mirror
the replies/side effects of the source one for one; raised models an uncaught
ValueError escaping the handler (no reply is sent). -/
inductive Action where
  | askDateAgain
  | createTask (title : String) (due : DT)
  | showSummary
  | showTemplates
  | confirmDelete (id : Int)
  | confirmDone (id : Int)
  | chooseDelete (cands : List TaskRec)
  | chooseDone (cands : List TaskRec)
  | noMatchDelete
  | noMatchDone
  | askForDate
  | showTasksList
  | goalCreated (title : String) (year : Int)
  | greeting
  | thanks
  | identity
  | fallback
  | raised
deriving DecidableEq, Repr

/-- _send_task_selection: empty candidate list → the no-match reply, otherwise
the multi-choice picker. -/
def send_task_selection (isDelete : Bool) (cands : List TaskRec) : Action :=
  if cands.isEmpty then (if isDelete then .noMatchDelete else .noMatchDone)
  else (if isDelete then .chooseDelete cands else .chooseDone cands)

/-- The tail of handle_message after the goal branch: greeting, thanks,
identity probes, generic fallback. -/
def afterGoal (lowered : String) : Action :=
  if ["merhaba", "selam", "naber", "nasılsın", "nasilsin"].any
      (fun w => containsStr lowered w) then .greeting
  else if ["teşekkür", "tesekkur", "sağ ol", "sag ol"].any
      (fun w => containsStr lowered w) then .thanks
  else if ["kimsin", "nesin", "ne yaparsın"].any
      (fun w => containsStr lowered w) then .identity
  else .fallback

/-- The delete branch of handle_message below the (never-firing, see
buggyIdGroup) explicit-id regex: extract the residual query, resolve
candidates with limit 5, a single candidate → direct confirmation, otherwise
the selection reply (no-match when empty). -/
def deleteByQuery (text : String) (tasks : List TaskRec) : Action :=
  match find_task_candidates (extract_action_query text DELETE_WORDS) tasks 5 with
  | [c] => .confirmDelete (c.id : Int)
  | cs => send_task_selection true cs

/-- The complete branch of handle_message below the explicit-id regex. -/
def doneByQuery (text : String) (tasks : List TaskRec) : Action :=
  match find_task_candidates (extract_action_query text COMPLETE_WORDS) tasks 5 with
  | [c] => .confirmDone (c.id : Int)
  | cs => send_task_selection false cs

/-- handle_message of app/services/telegram_bot.py, translated branch by
branch.  sd is the dateparser oracle (see parse_task_text), now the current
local instant, chat the conversation id, tasks the open-task list the delete/
complete branches fetch from the store, st the pending_tasks table.  The
result is the emitted action plus the updated pending_tasks table. -/
def handle_message (sd : String → Option (String × DT)) (now : DT) (chat : String)
    (text0 : String) (tasks : List TaskRec) (st : St) : Action × St :=
  let text := pyStrip text0
  let lowered := strLower text
  match get_pending_task st chat with
  | some p =>
    match (parse_task_text sd text now).2 with
    | none => (.askDateAgain, st)
    | some d => (.createTask p.title d, clear_pending_task st p.id)
  | none =>
    if is_summary_request text then (.showSummary, st)
    else if containsStr lowered "şablon" || containsStr lowered "template" ||
        containsStr lowered "örnek" then (.showTemplates, st)
    else if is_delete_request text then
      match buggyIdGroup text.data with
      | some g =>
        match pyInt ⟨g⟩ with
        | some n => (.confirmDelete n, st)
        | none => (.raised, st)
      | none => (deleteByQuery text tasks, st)
    else if is_complete_request text then
      match buggyIdGroup text.data with
      | some g =>
        match pyInt ⟨g⟩ with
        | some n => (.confirmDone n, st)
        | none => (.raised, st)
      | none => (doneByQuery text tasks, st)
    else if looks_like_task text then
      let pr := parse_task_text sd text now
      let nt := normalize_task_title pr.1
      match pr.2 with
      | none => (.askForDate, add_pending_task st chat nt (dtKey now))
      | some d => (.createTask nt d, st)
    else if containsStr lowered "listele" || containsStr lowered "görev" ||
        containsStr lowered "liste" then (.showTasksList, st)
    else if containsStr lowered "hedef" then
      match goalGroup text with
      | some g =>
        match pyInt g with
        | none => (.raised, st)
        | some yr =>
          let t := pyStrip (pyReplace text g "")
          if t.data.isEmpty then (afterGoal lowered, st) else (.goalCreated t yr, st)
      | none => (afterGoal lowered, st)
    else (afterGoal lowered, st)

/-! ### Calendar lemmas -/

theorem isLeap_iff (y : Nat) :
    isLeap y = true ↔ ((y % 4 = 0 ∧ ¬ y % 100 = 0) ∨ y % 400 = 0) := by
  simp [isLeap]

theorem daysInMonth_pos (y m : Nat) (h1 : 1 ≤ m) (h2 : m ≤ 12) :
    1 ≤ daysInMonth y m := by
  interval_cases m <;> (simp [daysInMonth]; try split) <;> omega

set_option maxHeartbeats 1000000 in
theorem dbm_succ (y m : Nat) (h1 : 1 ≤ m) (h2 : m ≤ 11) :
    daysBeforeMonth y (m + 1) = daysBeforeMonth y m + daysInMonth y m := by
  by_cases hL : isLeap y = true <;>
    interval_cases m <;>
    simp [daysBeforeMonth, daysInMonth, hL]

set_option maxHeartbeats 4000000 in
theorem dby_succ (y : Nat) (hy : 1 ≤ y) :
    daysBeforeYear (y + 1) = daysBeforeYear y + 365 + (if isLeap y = true then 1 else 0) := by
  have hsimp : y + 1 - 1 = y := by omega
  by_cases hL : isLeap y = true
  · have hl := (isLeap_iff y).mp hL
    rw [if_pos hL]
    unfold daysBeforeYear
    rw [hsimp]
    omega
  · have hnl : ¬ ((y % 4 = 0 ∧ ¬ y % 100 = 0) ∨ y % 400 = 0) := by
      rw [← isLeap_iff]; simp [hL]
    rw [if_neg hL]
    unfold daysBeforeYear
    rw [hsimp]
    omega

theorem dayNumber_nextDay (t : DT) (h : Valid t) :
    dayNumber (nextDay t) = dayNumber t + 1 := by
  rcases t with ⟨y, m, d, hh, mi, ss, us⟩
  obtain ⟨hy, hm1, hm2, hd1, hd2, -⟩ := h
  dsimp only at hy hm1 hm2 hd1 hd2
  unfold nextDay
  dsimp only
  split_ifs with h1 h2
  · simp only [dayNumber]
    omega
  · have hde : d = daysInMonth y m := by omega
    simp only [dayNumber]
    rw [hde, dbm_succ y m hm1 (by omega)]
    have hpos := daysInMonth_pos y m hm1 hm2
    omega
  · have hm12 : m = 12 := by omega
    subst hm12
    have hdim : daysInMonth y 12 = 31 := rfl
    rw [hdim] at hd2 h1
    have hde : d = 31 := by omega
    subst hde
    simp only [dayNumber]
    rw [dby_succ y hy]
    by_cases hL : isLeap y = true <;> simp [daysBeforeMonth, hL]

theorem valid_nextDay (t : DT) (h : Valid t) : Valid (nextDay t) := by
  rcases t with ⟨y, m, d, hh, mi, ss, us⟩
  obtain ⟨hy, hm1, hm2, hd1, hd2, hh2, hmi, hss, hus⟩ := h
  dsimp only at hy hm1 hm2 hd1 hd2 hh2 hmi hss hus
  unfold nextDay
  dsimp only
  split_ifs with h1 h2
  · exact ⟨hy, hm1, hm2, by dsimp only; omega, by dsimp only; omega, hh2, hmi, hss, hus⟩
  · refine ⟨hy, by dsimp only; omega, by dsimp only; omega, by dsimp only; omega, ?_,
      hh2, hmi, hss, hus⟩
    dsimp only
    exact daysInMonth_pos y (m + 1) (by omega) (by omega)
  · refine ⟨by dsimp only; omega, by dsimp only; omega, by dsimp only; omega,
      by dsimp only; omega, ?_, hh2, hmi, hss, hus⟩
    dsimp only
    simp [daysInMonth]

theorem dayNumber_addDays (k : Nat) :
    ∀ t : DT, Valid t →
      dayNumber (addDays t k) = dayNumber t + k ∧ Valid (addDays t k) := by
  induction k with
  | zero => intro t ht; exact ⟨rfl, ht⟩
  | succ n ih =>
    intro t ht
    have hnv := valid_nextDay t ht
    have hrec := ih (nextDay t) hnv
    refine ⟨?_, hrec.2⟩
    rw [show addDays t (n + 1) = addDays (nextDay t) n from rfl, hrec.1,
      dayNumber_nextDay t ht]
    omega

/-! ### Claims C8 and C9: end_of_month / end_of_week -/

/-- Claim C9 (confirmed): for every valid instant, end_of_week lands in the
same Monday-to-Sunday calendar week (same index of the 7-day block aligned to
Monday = day 0), on a Sunday (weekday 6), at time 23:59:00.000000. -/
theorem c9_end_of_week_sunday (t : DT) (h : Valid t) :
    weekday (end_of_week t) = 6 ∧
    dayNumber (end_of_week t) / 7 = dayNumber t / 7 ∧
    (end_of_week t).hh = 23 ∧ (end_of_week t).mi = 59 ∧
    (end_of_week t).ss = 0 ∧ (end_of_week t).us = 0 := by
  have hk := dayNumber_addDays (6 - weekday t) t h
  have hmod : dayNumber t % 7 ≤ 6 := by omega
  have hday : dayNumber (end_of_week t) = dayNumber t + (6 - weekday t) := by
    show dayNumber { addDays t (6 - weekday t) with hh := 23, mi := 59, ss := 0, us := 0 } = _
    have hsame : dayNumber { addDays t (6 - weekday t) with
        hh := 23, mi := 59, ss := 0, us := 0 } = dayNumber (addDays t (6 - weekday t)) := rfl
    rw [hsame, hk.1]
  refine ⟨?_, ?_, rfl, rfl, rfl, rfl⟩
  · rw [weekday, hday, weekday]
    omega
  · rw [hday, weekday]
    omega

/-- Witness for C9 at the concrete instant 2025-10-08 (a Wednesday) 12:30:05. -/
theorem c9_end_of_week_sunday_witness :
    Valid ⟨2025, 10, 8, 12, 30, 5, 7⟩ ∧
    (weekday (end_of_week ⟨2025, 10, 8, 12, 30, 5, 7⟩) = 6 ∧
     dayNumber (end_of_week ⟨2025, 10, 8, 12, 30, 5, 7⟩) / 7 =
       dayNumber ⟨2025, 10, 8, 12, 30, 5, 7⟩ / 7 ∧
     (end_of_week ⟨2025, 10, 8, 12, 30, 5, 7⟩).hh = 23 ∧
     (end_of_week ⟨2025, 10, 8, 12, 30, 5, 7⟩).mi = 59 ∧
     (end_of_week ⟨2025, 10, 8, 12, 30, 5, 7⟩).ss = 0 ∧
     (end_of_week ⟨2025, 10, 8, 12, 30, 5, 7⟩).us = 0) :=
  ⟨by decide, c9_end_of_week_sunday ⟨2025, 10, 8, 12, 30, 5, 7⟩ (by decide)⟩

/-- Claim C8 (code bug): end_of_month does NOT return the last day of the
current month at 23:59 for an afternoon instant.  datetime.replace keeps the
time of day, so from 2025-01-15 10:30:00 the code jumps to 2025-02-01
10:30:00 and subtracts one minute, yielding 2025-02-01 10:29:00 - the first
day of the NEXT month - instead of the claimed 2025-01-31 23:59:00. -/
theorem c8_end_of_month_eval :
    end_of_month ⟨2025, 1, 15, 10, 30, 0, 0⟩ = ⟨2025, 2, 1, 10, 29, 0, 0⟩ ∧
    (end_of_month ⟨2025, 1, 15, 10, 30, 0, 0⟩).m ≠ (1 : Nat) ∧
    (end_of_month ⟨2025, 1, 15, 10, 30, 0, 0⟩).d ≠ (31 : Nat) := by
  refine ⟨rfl, by decide, by decide⟩

/-! ### Claim C7: parse_duration -/

theorem takeWhile_append_all {p : Char → Bool} (a b : List Char)
    (h : ∀ c ∈ a, p c = true) : (a ++ b).takeWhile p = a ++ b.takeWhile p := by
  induction a with
  | nil => simp
  | cons x xs ih =>
    have hx := h x (by simp)
    simp [List.takeWhile_cons, hx, ih (fun c hc => h c (by simp [hc]))]

theorem dropWhile_append_all {p : Char → Bool} (a b : List Char)
    (h : ∀ c ∈ a, p c = true) : (a ++ b).dropWhile p = b.dropWhile p := by
  induction a with
  | nil => simp
  | cons x xs ih =>
    have hx := h x (by simp)
    simp [List.dropWhile_cons, hx, ih (fun c hc => h c (by simp [hc]))]

theorem dropWhile_cons_false {p : Char → Bool} (x : Char) (xs : List Char)
    (h : p x = false) : (x :: xs).dropWhile p = x :: xs := by
  simp [List.dropWhile_cons, h]

theorem takeWhile_cons_false {p : Char → Bool} (x : Char) (xs : List Char)
    (h : p x = false) : (x :: xs).takeWhile p = [] := by
  simp [List.takeWhile_cons, h]

theorem space_not_digit {c : Char} (h : isPySpace c = true) : isPyDigit c = false := by
  simp only [isPySpace, Bool.or_eq_true, decide_eq_true_eq] at h
  simp only [isPyDigit, Bool.and_eq_true, decide_eq_true_eq]
  simp only [Bool.and_eq_false_iff, decide_eq_false_iff_not]
  omega

theorem lowerChars_digit {c : Char} (h : isPyDigit c = true) : lowerChars c = [c] := by
  simp only [isPyDigit, Bool.and_eq_true, decide_eq_true_eq] at h
  unfold lowerChars
  rw [if_neg (by simp only [Bool.and_eq_true, decide_eq_true_eq]; omega),
    if_neg (by omega), if_neg (by omega), if_neg (by omega), if_neg (by omega),
    if_neg (by omega), if_neg (by omega)]

theorem lowerChars_space {c : Char} (h : isPySpace c = true) : lowerChars c = [c] := by
  simp only [isPySpace, Bool.or_eq_true, decide_eq_true_eq] at h
  unfold lowerChars
  rw [if_neg (by simp only [Bool.and_eq_true, decide_eq_true_eq]; omega),
    if_neg (by omega), if_neg (by omega), if_neg (by omega), if_neg (by omega),
    if_neg (by omega), if_neg (by omega)]

theorem lowerList_append (a b : List Char) :
    lowerList (a ++ b) = lowerList a ++ lowerList b := by
  induction a with
  | nil => simp [lowerList]
  | cons x xs ih => simp [lowerList, ih, List.append_assoc]

theorem lowerList_fixed (a : List Char) (h : ∀ c ∈ a, lowerChars c = [c]) :
    lowerList a = a := by
  induction a with
  | nil => rfl
  | cons x xs ih =>
    simp only [lowerList, h x (by simp), List.cons_append, List.nil_append]
    rw [ih (fun c hc => h c (by simp [hc]))]

/-- The duration units, in the alternation order of the source regex. -/
def DUR_UNITS : List String := ["dakika", "dk", "saat", "gün", "gun"]

theorem unitsMatch_unit (u : String) (hu : u ∈ DUR_UNITS) (lrest : List Char) :
    unitsMatch (u.data ++ lrest) = some (unitFactor u) := by
  simp only [DUR_UNITS, List.mem_cons, List.not_mem_nil, or_false] at hu
  rcases hu with rfl | rfl | rfl | rfl | rfl <;>
    simp [show "dakika".data = ['d','a','k','i','k','a'] from rfl,
      show "dk".data = ['d','k'] from rfl,
      show "saat".data = ['s','a','a','t'] from rfl,
      show "gün".data = ['g','ü','n'] from rfl,
      show "gun".data = ['g','u','n'] from rfl,
      unitsMatch, startsWithChars, unitFactor]

theorem unit_head_not_digit (u : String) (hu : u ∈ DUR_UNITS) (lrest : List Char) :
    (u.data ++ lrest).takeWhile isPyDigit = [] := by
  simp only [DUR_UNITS, List.mem_cons, List.not_mem_nil, or_false] at hu
  rcases hu with rfl | rfl | rfl | rfl | rfl <;>
    · rw [show _ ++ lrest = _ :: _ from rfl]
      exact takeWhile_cons_false _ _ (by decide)

theorem unit_head_not_space (u : String) (hu : u ∈ DUR_UNITS) (lrest : List Char) :
    (u.data ++ lrest).dropWhile isPySpace = u.data ++ lrest := by
  simp only [DUR_UNITS, List.mem_cons, List.not_mem_nil, or_false] at hu
  rcases hu with rfl | rfl | rfl | rfl | rfl <;>
    · rw [show _ ++ lrest = _ :: _ from rfl]
      exact dropWhile_cons_false _ _ (by decide)

theorem durScan_startPair (ds ws lrest : List Char) (u : String)
    (hds : ds ≠ []) (hdig : ∀ c ∈ ds, isPyDigit c = true)
    (hws : ∀ c ∈ ws, isPySpace c = true) (hu : u ∈ DUR_UNITS) :
    durScan (ds ++ (ws ++ (u.data ++ lrest))) =
      some (unitFactor u * digitsVal ds) := by
  have htake : (ds ++ (ws ++ (u.data ++ lrest))).takeWhile isPyDigit = ds := by
    rw [takeWhile_append_all ds _ hdig]
    have h2 : (ws ++ (u.data ++ lrest)).takeWhile isPyDigit = [] := by
      cases ws with
      | nil =>
        simp only [List.nil_append]
        exact unit_head_not_digit u hu lrest
      | cons w ws' =>
        exact takeWhile_cons_false w _ (space_not_digit (hws w (by simp)))
    rw [h2, List.append_nil]
  have hdrop : (ds ++ (ws ++ (u.data ++ lrest))).dropWhile isPyDigit =
      ws ++ (u.data ++ lrest) := by
    rw [dropWhile_append_all ds _ hdig]
    cases ws with
    | nil =>
      simp only [List.nil_append]
      rw [show (u.data ++ lrest).dropWhile isPyDigit =
        ((u.data ++ lrest).takeWhile isPyDigit) ++ ((u.data ++ lrest).dropWhile isPyDigit)
        from by rw [unit_head_not_digit u hu lrest, List.nil_append]]
      rw [List.takeWhile_append_dropWhile]
    | cons w ws' =>
      exact dropWhile_cons_false w _ (space_not_digit (hws w (by simp)))
  have hdrop2 : (ws ++ (u.data ++ lrest)).dropWhile isPySpace = u.data ++ lrest := by
    rw [dropWhile_append_all ws _ hws]
    exact unit_head_not_space u hu lrest
  rcases ds with - | ⟨d0, ds'⟩
  · exact absurd rfl hds
  have hd0 : isPyDigit d0 = true := hdig d0 (by simp)
  simp only [List.cons_append] at htake hdrop ⊢
  rw [show durScan (d0 :: (ds' ++ (ws ++ (u.data ++ lrest)))) =
      match tryPair (d0 :: (ds' ++ (ws ++ (u.data ++ lrest)))) with
      | some v => some v
      | none => durScan (ds' ++ (ws ++ (u.data ++ lrest))) from rfl]
  rw [show tryPair (d0 :: (ds' ++ (ws ++ (u.data ++ lrest)))) =
      (if isPyDigit d0 then
        match unitsMatch (((d0 :: (ds' ++ (ws ++ (u.data ++ lrest)))).dropWhile
            isPyDigit).dropWhile isPySpace) with
        | some f => some (f * digitsVal ((d0 :: (ds' ++ (ws ++ (u.data ++
            lrest)))).takeWhile isPyDigit))
        | none => none
      else none) from rfl]
  rw [if_pos (by rw [hd0])]
  rw [hdrop, hdrop2, unitsMatch_unit u hu lrest, htake]

theorem unit_lower_fixed (u : String) (hu : u ∈ DUR_UNITS) :
    lowerList u.data = u.data := by
  simp only [DUR_UNITS, List.mem_cons, List.not_mem_nil, or_false] at hu
  rcases hu with rfl | rfl | rfl | rfl | rfl <;> rfl

/-- Claim C7 (confirmed): parse_duration returns the minute count of the first
integer-unit pair - the value itself for minute units, times 60 for the hour
unit, times 1440 for day units - and no match otherwise; the four examples of
the claim hold, a fifth example shows the first pair winning, and the general
conjunct covers every text that starts with digits, whitespace, a unit, and an
arbitrary remainder. -/
theorem c7_parse_duration :
    parse_duration "2 saat" = some 120 ∧
    parse_duration "30 dk" = some 30 ∧
    parse_duration "1 gün" = some 1440 ∧
    parse_duration "banana" = none ∧
    parse_duration "önce 2 saat sonra 30 dk" = some 120 ∧
    ∀ (ds ws lrest : List Char) (u : String),
      ds ≠ [] → (∀ c ∈ ds, isPyDigit c = true) → (∀ c ∈ ws, isPySpace c = true) →
      u ∈ DUR_UNITS →
      parse_duration ⟨ds ++ (ws ++ (u.data ++ lrest))⟩ =
        some (unitFactor u * digitsVal ds) := by
  refine ⟨by decide, by decide, by decide, by decide, by decide, ?_⟩
  intro ds ws lrest u hds hdig hws hu
  show durScan (strLower ⟨ds ++ (ws ++ (u.data ++ lrest))⟩).data = _
  have hldata : (strLower ⟨ds ++ (ws ++ (u.data ++ lrest))⟩).data
      = ds ++ (ws ++ (u.data ++ lowerList lrest)) := by
    show lowerList (ds ++ (ws ++ (u.data ++ lrest))) = _
    rw [lowerList_append, lowerList_append, lowerList_append,
      lowerList_fixed ds (fun c hc => lowerChars_digit (hdig c hc)),
      lowerList_fixed ws (fun c hc => lowerChars_space (hws c hc)),
      unit_lower_fixed u hu]
  rw [hldata]
  exact durScan_startPair ds ws (lowerList lrest) u hds hdig hws hu

/-- Witness for the general conjunct of C7: the text 4·space·saat parses to
240 minutes. -/
theorem c7_parse_duration_witness :
    (['4'] : List Char) ≠ [] ∧
    parse_duration ⟨['4'] ++ ([' '] ++ ("saat".data ++ []))⟩ =
      some (unitFactor "saat" * digitsVal ['4']) :=
  ⟨by decide, c7_parse_duration.2.2.2.2.2 ['4'] [' '] [] "saat" (by decide)
    (by decide) (by decide) (by decide)⟩

/-! ### Claims C4, C10, C5, C1 -/

/-- Claim C4 counterexample: the single word görev is a nonempty input that the
normalizer's own filler stripping reduces to nothing, and the function returns
the empty string - not the placeholder - so the claimed never-empty guarantee
fails. -/
theorem c4_empty_title_cex : normalize_task_title "görev" = "" ∧ ("görev" : String) ≠ "" := by
  refine ⟨by decide, by decide⟩

/-- Claim C4 amended: the placeholder Görev. is returned only when the INPUT
strips to empty; when the filler stripping empties a nonempty input the
function returns the empty string (witnessed by görev). -/
theorem c4_placeholder_only_for_empty_input :
    (∀ s : String, pyStrip s = "" → normalize_task_title s = "Görev.") ∧
    normalize_task_title "görev" = "" := by
  refine ⟨?_, by decide⟩
  intro s h
  simp only [normalize_task_title, h]
  rfl

/-- Witness for C4's amended statement at the whitespace-only input. -/
theorem c4_placeholder_only_for_empty_input_witness :
    pyStrip "  " = "" ∧ normalize_task_title "  " = "Görev." :=
  ⟨by decide, c4_placeholder_only_for_empty_input.1 "  " (by decide)⟩

/-- Claim C10 (confirmed): when the date-search oracle matched a phrase and
replacing every occurrence of it by a space leaves only whitespace, the title
is the stripped original text (date phrase included, no filler stripping). -/
theorem c10_title_falls_back_to_full_text
    (sd : String → Option (String × DT)) (text : String) (now : DT)
    (phrase : String) (dt : DT)
    (hfound : sd text = some (phrase, dt))
    (hempty : pyStrip (pyReplace text phrase " ") = "") :
    (parse_task_text sd text now).1 = pyStrip text := by
  simp only [parse_task_text, hfound, hempty]
  rfl

/-- Concrete oracle for the C10 witness. -/
def c10sd : String → Option (String × DT) :=
  fun s => if s = " yarın " then some ("yarın", ⟨2025, 10, 7, 9, 0, 0, 0⟩) else none

/-- Witness for C10: the whole message is the date phrase (with surrounding
spaces); the resulting title is the stripped original message. -/
theorem c10_title_falls_back_to_full_text_witness :
    c10sd " yarın " = some ("yarın", ⟨2025, 10, 7, 9, 0, 0, 0⟩) ∧
    pyStrip (pyReplace " yarın " "yarın" " ") = "" ∧
    (parse_task_text c10sd " yarın " ⟨2025, 10, 6, 10, 0, 0, 0⟩).1 = pyStrip " yarın " :=
  ⟨by decide, by decide,
    c10_title_falls_back_to_full_text c10sd " yarın " ⟨2025, 10, 6, 10, 0, 0, 0⟩
      "yarın" ⟨2025, 10, 7, 9, 0, 0, 0⟩ (by decide) (by decide)⟩

/-- Claim C5 (code bug), evaluated at the failing input: with the query
tez okuma and the single open task tez yazımı the claimed scoring gives the
shared token tez, hence score 1 and the task kept; the code's splitter
(doubled backslash, see isKeepChar) produces NO tokens from either string, so
the task scores 0 and is dropped - the resolver returns the empty list. -/
theorem c5_resolver_eval :
    find_task_candidates "tez okuma" [⟨1, "tez yazımı", none⟩] 5 = [] ∧
    tokenize "tez okuma" = [] ∧ tokenize "tez yazımı" = [] := by
  refine ⟨by decide, by decide, by decide⟩

/-- Claim C1 (code bug), evaluated at the failing input: the message sil 12
is a delete request with a bare digit id, but the source's id regex (doubled
backslash, see buggyIdGroup) does not match digits, so the engine falls
through to candidate resolution with residual query 12 and replies no-match
instead of the claimed direct confirmation for id 12. -/
theorem c1_delete_id_eval :
    (handle_message (fun _ => none) ⟨2025, 10, 6, 10, 0, 0, 0⟩ "c" "sil 12"
      [⟨1, "danışman toplantısı", some 1⟩] ⟨[], 0⟩).1 = Action.noMatchDelete ∧
    (handle_message (fun _ => none) ⟨2025, 10, 6, 10, 0, 0, 0⟩ "c" "sil 12"
      [⟨1, "danışman toplantısı", some 1⟩] ⟨[], 0⟩).1 ≠ Action.confirmDelete 12 := by
  refine ⟨by decide, by decide⟩

/-! ### Pending-store lemmas -/

theorem filter_chat_nil (recs : List PendingRec) (chat : String)
    (h : ∀ r ∈ recs, r.chatId ≠ chat) :
    recs.filter (fun r => r.chatId == chat) = [] := by
  induction recs with
  | nil => rfl
  | cons x xs ih =>
    have hx : (x.chatId == chat) = false := by
      simpa using h x (by simp)
    simp [List.filter_cons, hx, ih (fun r hr => h r (by simp [hr]))]

theorem get_pending_task_none_of_free (st : St) (chat : String)
    (h : ∀ r ∈ st.recs, r.chatId ≠ chat) :
    get_pending_task st chat = none := by
  unfold get_pending_task
  rw [filter_chat_nil _ _ h]
  rfl

theorem foldl_pending_some (l : List PendingRec) (b : PendingRec) :
    (l.foldl (fun acc r =>
      match acc with
      | none => some r
      | some b => if b.createdAt < r.createdAt then some r else some b)
      (some b)).isSome = true := by
  induction l generalizing b with
  | nil => rfl
  | cons x xs ih =>
    simp only [List.foldl_cons]
    split <;> exact ih _

theorem get_pending_task_none_filter (st : St) (chat : String)
    (h : get_pending_task st chat = none) :
    st.recs.filter (fun r => r.chatId == chat) = [] := by
  unfold get_pending_task at h
  cases hf : st.recs.filter (fun r => r.chatId == chat) with
  | nil => rfl
  | cons x xs =>
    rw [hf] at h
    simp only [List.foldl_cons] at h
    have := foldl_pending_some xs x
    rw [h] at this
    simp at this

theorem get_pending_task_add_free (st : St) (chat t : String) (ts : Nat)
    (h : ∀ r ∈ st.recs, r.chatId ≠ chat) :
    get_pending_task (add_pending_task st chat t ts) chat =
      some ⟨st.nextId, chat, t, ts⟩ := by
  unfold get_pending_task add_pending_task
  rw [List.filter_append, filter_chat_nil _ _ h]
  simp [List.filter_cons]

theorem get_pending_task_clear_add_free (st : St) (chat t : String) (ts : Nat)
    (h : ∀ r ∈ st.recs, r.chatId ≠ chat) :
    get_pending_task
      (clear_pending_task (add_pending_task st chat t ts) st.nextId) chat = none := by
  apply get_pending_task_none_of_free
  intro r hr
  unfold clear_pending_task add_pending_task at hr
  simp only [List.mem_filter, List.mem_append, List.mem_singleton] at hr
  rcases hr with ⟨hmem | hnew, hid⟩
  · exact h r hmem
  · rw [hnew] at hid
    simp at hid
/-! ### Claim C2: category priority -/

theorem startsWithChars_mem (n : List Char) :
    ∀ l : List Char, startsWithChars n l = true → ∀ c ∈ n, c ∈ l := by
  induction n with
  | nil => simp
  | cons x xs ih =>
    intro l h c hc
    cases l with
    | nil => simp [startsWithChars] at h
    | cons y ys =>
      simp only [startsWithChars, Bool.and_eq_true, beq_iff_eq] at h
      rcases List.mem_cons.mp hc with rfl | hc2
      · exact List.mem_cons.mpr (Or.inl h.1)
      · exact List.mem_cons.mpr (Or.inr (ih ys h.2 c hc2))

theorem isInfixChars_mem (n : List Char) :
    ∀ l : List Char, isInfixChars n l = true → ∀ c ∈ n, c ∈ l := by
  intro l
  induction l with
  | nil =>
    intro h c hc
    simp only [isInfixChars, List.isEmpty_iff] at h
    subst h
    cases hc
  | cons y ys ih =>
    intro h c hc
    simp only [isInfixChars, Bool.or_eq_true] at h
    rcases h with h1 | h2
    · exact startsWithChars_mem n _ h1 c hc
    · exact List.mem_cons.mpr (Or.inr (ih h2 c hc))

theorem mem_dropWhile_imp {p : Char → Bool} {c : Char} :
    ∀ l : List Char, c ∈ l.dropWhile p → c ∈ l := by
  intro l h
  exact (List.dropWhile_sublist p).subset h

theorem mem_pyStrip_imp {c : Char} (s : String) (h : c ∈ (pyStrip s).data) : c ∈ s.data := by
  unfold pyStrip pyStripList at h
  simp only [List.mem_reverse] at h
  have h2 : c ∈ (s.data.dropWhile isPySpace).reverse := mem_dropWhile_imp _ h
  rw [List.mem_reverse] at h2
  exact mem_dropWhile_imp _ h2

theorem goalGroup_none_of_noBackslash (s : String) (h : (Char.ofNat 92) ∉ s.data) :
    goalGroup s = none := by
  unfold goalGroup
  rw [if_neg (fun hin => h (isInfixChars_mem goalPat s.data hin (Char.ofNat 92) (by decide)))]

/-- The no-action replies of the fall-through region (the spec models all of
these as the plain NoAction reply). -/
def isPlainReply : Action → Bool
  | .showTemplates => true
  | .showTasksList => true
  | .greeting => true
  | .thanks => true
  | .identity => true
  | .fallback => true
  | _ => false

/-- Actions only the complete branch emits. -/
def isCompleteFamily : Action → Bool
  | .confirmDone _ => true
  | .chooseDone _ => true
  | .noMatchDone => true
  | _ => false

/-- Actions only the task-like branch emits when no pending draft exists. -/
def isTaskFamily : Action → Bool
  | .askForDate => true
  | .createTask _ _ => true
  | _ => false

theorem afterGoal_plain (s : String) : isPlainReply (afterGoal s) = true := by
  unfold afterGoal
  split_ifs <;> rfl

/-- Claim C2, amended (the original fails only on texts containing a literal
backslash, see c2_priority_cex): the category decision follows the fixed
priority.  (1) an active pending draft turns any message into a date answer;
(2) otherwise a summary keyword wins outright - even against delete, complete
and task keywords; (3) a delete match is handled before the complete and
task-like categories; (4) a complete match is handled before the task-like
category; (5) a message matching none of the four categories and containing
no literal backslash falls through to one of the plain no-action replies. -/
theorem c2_priority_order (sd : String → Option (String × DT)) (now : DT)
    (chat text0 : String) (tasks : List TaskRec) (st : St) :
    (∀ p, get_pending_task st chat = some p →
      (handle_message sd now chat text0 tasks st).1 = .askDateAgain ∨
      ∃ d, (handle_message sd now chat text0 tasks st).1 = .createTask p.title d) ∧
    (get_pending_task st chat = none →
      is_summary_request (pyStrip text0) = true →
      (handle_message sd now chat text0 tasks st).1 = .showSummary) ∧
    (get_pending_task st chat = none →
      is_summary_request (pyStrip text0) = false →
      is_delete_request (pyStrip text0) = true →
      isCompleteFamily (handle_message sd now chat text0 tasks st).1 = false ∧
      isTaskFamily (handle_message sd now chat text0 tasks st).1 = false) ∧
    (get_pending_task st chat = none →
      is_summary_request (pyStrip text0) = false →
      is_complete_request (pyStrip text0) = true →
      isTaskFamily (handle_message sd now chat text0 tasks st).1 = false) ∧
    (get_pending_task st chat = none →
      is_summary_request (pyStrip text0) = false →
      is_delete_request (pyStrip text0) = false →
      is_complete_request (pyStrip text0) = false →
      looks_like_task (pyStrip text0) = false →
      (Char.ofNat 92) ∉ text0.data →
      isPlainReply (handle_message sd now chat text0 tasks st).1 = true) := by
  refine ⟨?_, ?_, ?_, ?_, ?_⟩
  · intro p hp
    unfold handle_message
    rw [hp]
    dsimp only
    cases hpt : (parse_task_text sd (pyStrip text0) now).2 with
    | none => exact Or.inl rfl
    | some d => exact Or.inr ⟨d, rfl⟩
  · intro hp hsum
    unfold handle_message
    rw [hp]
    dsimp only
    simp only [hsum, if_true]
  · intro hp hsum hdel
    unfold handle_message
    rw [hp]
    dsimp only
    simp only [hsum, hdel, Bool.false_eq_true, if_false, if_true]
    split_ifs with htmp
    · exact ⟨rfl, rfl⟩
    · constructor <;>
        · cases hg : buggyIdGroup (pyStrip text0).data <;> dsimp only
          · unfold deleteByQuery
            split
            · rfl
            · unfold send_task_selection
              split_ifs <;> first | rfl | simp_all
          · cases hi : pyInt _ <;> dsimp only <;> rfl
  · intro hp hsum hcomp
    unfold handle_message
    rw [hp]
    dsimp only
    simp only [hsum, hcomp, Bool.false_eq_true, if_false, if_true]
    split_ifs with htmp hdel
    · rfl
    · cases hg : buggyIdGroup (pyStrip text0).data <;> dsimp only
      · unfold deleteByQuery
        split
        · rfl
        · unfold send_task_selection
          split_ifs <;> rfl
      · cases hi : pyInt _ <;> dsimp only <;> rfl
    · cases hg : buggyIdGroup (pyStrip text0).data <;> dsimp only
      · unfold doneByQuery
        split
        · rfl
        · unfold send_task_selection
          split_ifs <;> rfl
      · cases hi : pyInt _ <;> dsimp only <;> rfl
  · intro hp hsum hdel hcomp htask hbs
    unfold handle_message
    rw [hp]
    dsimp only
    simp only [hsum, hdel, hcomp, htask, Bool.false_eq_true, if_false]
    split_ifs with htmp hlist hhedef
    · rfl
    · rfl
    · rw [goalGroup_none_of_noBackslash (pyStrip text0)
        (fun hin => hbs (mem_pyStrip_imp text0 hin))]
      exact afterGoal_plain _
    · exact afterGoal_plain _

/-- Claim C2 counterexample: the message hedef 20\dd x matches none of the
summary/delete/complete/task categories, yet the handler does not produce the
plain no-action reply: the goal-year regex (doubled backslash, see goalPat)
matches the literal text 20\dd and int() then raises ValueError, modelled as
Action.raised. -/
theorem c2_priority_cex :
    is_summary_request "hedef 20\\dd x" = false ∧
    is_delete_request "hedef 20\\dd x" = false ∧
    is_complete_request "hedef 20\\dd x" = false ∧
    looks_like_task "hedef 20\\dd x" = false ∧
    (handle_message (fun _ => none) ⟨2025, 10, 6, 10, 0, 0, 0⟩ "c" "hedef 20\\dd x"
      [] ⟨[], 0⟩).1 = Action.raised ∧
    isPlainReply Action.raised = false := by
  exact ⟨by decide, by decide, by decide, by decide, by decide, by decide⟩

/-- Witness for C2's amended statement: the message özet sil (summary and
delete keywords together) is answered with the summary, with an empty pending
store. -/
theorem c2_priority_order_witness :
    (handle_message (fun _ => none) ⟨2025, 10, 6, 10, 0, 0, 0⟩ "c" "özet sil"
      [] ⟨[], 0⟩).1 = Action.showSummary :=
  (c2_priority_order (fun _ => none) ⟨2025, 10, 6, 10, 0, 0, 0⟩ "c" "özet sil"
    [] ⟨[], 0⟩).2.1 (by decide) (by decide)

/-! ### Claims C3 and C6: the pending-task state machine -/

/-- With an active pending draft, handle_message only looks at the extracted
instant: no date → re-ask and leave the store; a date → create the task with
the STORED title and clear that record. -/
theorem handle_message_pending (sd : String → Option (String × DT)) (now : DT)
    (chat text0 : String) (tasks : List TaskRec) (st : St) (p : PendingRec)
    (hp : get_pending_task st chat = some p) :
    handle_message sd now chat text0 tasks st =
      (match (parse_task_text sd (pyStrip text0) now).2 with
       | none => (Action.askDateAgain, st)
       | some d => (Action.createTask p.title d, clear_pending_task st p.id)) := by
  unfold handle_message
  rw [hp]

/-- With no pending draft, a summary-matching message is answered with the
summary and the store is untouched. -/
theorem handle_message_summary (sd : String → Option (String × DT)) (now : DT)
    (chat text0 : String) (tasks : List TaskRec) (st : St)
    (hp : get_pending_task st chat = none)
    (hsum : is_summary_request (pyStrip text0) = true) :
    handle_message sd now chat text0 tasks st = (Action.showSummary, st) := by
  unfold handle_message
  rw [hp]
  dsimp only
  simp only [hsum, if_true]

/-- With no pending draft, a message passing the earlier branches and looking
like a task with no extractable date arms the pending slot with the normalized
title and asks for a date. -/
theorem handle_message_arm (sd : String → Option (String × DT)) (now : DT)
    (chat text0 : String) (tasks : List TaskRec) (st : St)
    (hp : get_pending_task st chat = none)
    (hsum : is_summary_request (pyStrip text0) = false)
    (htm1 : containsStr (strLower (pyStrip text0)) "şablon" = false)
    (htm2 : containsStr (strLower (pyStrip text0)) "template" = false)
    (htm3 : containsStr (strLower (pyStrip text0)) "örnek" = false)
    (hdel : is_delete_request (pyStrip text0) = false)
    (hcomp : is_complete_request (pyStrip text0) = false)
    (htask : looks_like_task (pyStrip text0) = true)
    (hnodate : (parse_task_text sd (pyStrip text0) now).2 = none) :
    handle_message sd now chat text0 tasks st =
      (Action.askForDate, add_pending_task st chat
        (normalize_task_title (parse_task_text sd (pyStrip text0) now).1)
        (dtKey now)) := by
  unfold handle_message
  rw [hp]
  dsimp only
  simp only [hsum, htm1, htm2, htm3, hdel, hcomp, htask, Bool.or_false,
    Bool.false_eq_true, if_false, if_true]
  rw [hnodate]

/-- Shared concrete instants for the scenario theorems below. -/
def exNowA : DT := ⟨2025, 10, 6, 10, 0, 0, 0⟩

def exNowB : DT := ⟨2025, 10, 6, 10, 5, 0, 0⟩

def exNowC : DT := ⟨2025, 10, 6, 10, 10, 0, 0⟩

def exDue : DT := ⟨2025, 10, 7, 9, 0, 0, 0⟩

/-- Concrete date-search oracle: only the exact message yarın carries a date. -/
def sdEx : String → Option (String × DT) :=
  fun s => if s = "yarın" then some ("yarın", exDue) else none

/-- Claim C3 (confirmed): arming round trip.  A task-like message with no
date (not matching any earlier branch) replies with the date question and
stores one pending draft titled with the normalized title X; the next message
that yields an instant creates the task with exactly title X and that instant
and clears the slot - afterwards a summary message is classified as a summary
again; a next message that yields no instant leaves the slot armed and only
re-asks, whatever its keywords are. -/
theorem c3_pending_round_trip (sd : String → Option (String × DT))
    (now1 now2 : DT) (chat text1 text2 : String) (tasks : List TaskRec) (st0 : St)
    (hfree : ∀ r ∈ st0.recs, r.chatId ≠ chat)
    (hsum : is_summary_request (pyStrip text1) = false)
    (htm1 : containsStr (strLower (pyStrip text1)) "şablon" = false)
    (htm2 : containsStr (strLower (pyStrip text1)) "template" = false)
    (htm3 : containsStr (strLower (pyStrip text1)) "örnek" = false)
    (hdel : is_delete_request (pyStrip text1) = false)
    (hcomp : is_complete_request (pyStrip text1) = false)
    (htask : looks_like_task (pyStrip text1) = true)
    (hnodate : (parse_task_text sd (pyStrip text1) now1).2 = none) :
    handle_message sd now1 chat text1 tasks st0 =
      (Action.askForDate, add_pending_task st0 chat
        (normalize_task_title (parse_task_text sd (pyStrip text1) now1).1)
        (dtKey now1)) ∧
    get_pending_task (handle_message sd now1 chat text1 tasks st0).2 chat =
      some ⟨st0.nextId, chat,
        normalize_task_title (parse_task_text sd (pyStrip text1) now1).1,
        dtKey now1⟩ ∧
    (∀ inst, (parse_task_text sd (pyStrip text2) now2).2 = some inst →
      (handle_message sd now2 chat text2 tasks
          (handle_message sd now1 chat text1 tasks st0).2).1 =
        Action.createTask
          (normalize_task_title (parse_task_text sd (pyStrip text1) now1).1) inst ∧
      get_pending_task (handle_message sd now2 chat text2 tasks
          (handle_message sd now1 chat text1 tasks st0).2).2 chat = none ∧
      (∀ (now3 : DT) (text3 : String), is_summary_request (pyStrip text3) = true →
        (handle_message sd now3 chat text3 tasks
            (handle_message sd now2 chat text2 tasks
              (handle_message sd now1 chat text1 tasks st0).2).2).1 =
          Action.showSummary)) ∧
    ((parse_task_text sd (pyStrip text2) now2).2 = none →
      handle_message sd now2 chat text2 tasks
          (handle_message sd now1 chat text1 tasks st0).2 =
        (Action.askDateAgain, (handle_message sd now1 chat text1 tasks st0).2)) := by
  have harm := handle_message_arm sd now1 chat text1 tasks st0
    (get_pending_task_none_of_free st0 chat hfree)
    hsum htm1 htm2 htm3 hdel hcomp htask hnodate
  have hst1 : (handle_message sd now1 chat text1 tasks st0).2 =
      add_pending_task st0 chat
        (normalize_task_title (parse_task_text sd (pyStrip text1) now1).1)
        (dtKey now1) := by rw [harm]
  have hget : get_pending_task (handle_message sd now1 chat text1 tasks st0).2 chat =
      some ⟨st0.nextId, chat,
        normalize_task_title (parse_task_text sd (pyStrip text1) now1).1, dtKey now1⟩ := by
    rw [hst1]
    exact get_pending_task_add_free st0 chat _ (dtKey now1) hfree
  refine ⟨harm, hget, ?_, ?_⟩
  · intro inst hinst
    have hm2 := handle_message_pending sd now2 chat text2 tasks
      (handle_message sd now1 chat text1 tasks st0).2 _ hget
    rw [hinst] at hm2
    have hclear : get_pending_task
        (handle_message sd now2 chat text2 tasks
          (handle_message sd now1 chat text1 tasks st0).2).2 chat = none := by
      rw [hm2]
      dsimp only
      rw [hst1]
      exact get_pending_task_clear_add_free st0 chat _ (dtKey now1) hfree
    refine ⟨by rw [hm2], hclear, ?_⟩
    intro now3 text3 hsum3
    rw [handle_message_summary sd now3 chat text3 tasks _ hclear hsum3]
  · intro hnone
    have hm2 := handle_message_pending sd now2 chat text2 tasks
      (handle_message sd now1 chat text1 tasks st0).2 _ hget
    rw [hnone] at hm2
    exact hm2
/-- Witness for C3 at a concrete run: arming with tez yaz stores the draft
titled Tez yaz. and replies with the date question. -/
theorem c3_pending_round_trip_witness :
    looks_like_task (pyStrip "tez yaz") = true ∧
    (parse_task_text sdEx (pyStrip "tez yaz") exNowA).2 = none ∧
    handle_message sdEx exNowA "c" "tez yaz" [] ⟨[], 0⟩ =
      (Action.askForDate, add_pending_task ⟨[], 0⟩ "c"
        (normalize_task_title (parse_task_text sdEx (pyStrip "tez yaz") exNowA).1)
        (dtKey exNowA)) :=
  ⟨by decide, by decide,
    (c3_pending_round_trip sdEx exNowA exNowC "c" "tez yaz" "yarın" [] ⟨[], 0⟩
      (by decide) (by decide) (by decide) (by decide) (by decide) (by decide)
      (by decide) (by decide) (by decide)).1⟩

/-- Claim C6, amended: the pending slot is single per conversation, but the
conflict rule is FIRST-writer-wins, not the claimed replacement.  (1) every
handle_message call preserves the at-most-one-pending-row-per-conversation
property; (2) while a draft exists, any message without an extractable date -
in particular a new task-like message - does not create or replace a draft:
the store is returned unchanged and the bot only re-asks; (3) a date answer
finalizes the EXISTING (earlier) draft and deletes exactly its record. -/
theorem c6_single_slot_pending (sd : String → Option (String × DT)) (now : DT)
    (chat text0 : String) (tasks : List TaskRec) (st : St) :
    ((st.recs.filter (fun r => r.chatId == chat)).length ≤ 1 →
      ((handle_message sd now chat text0 tasks st).2.recs.filter
        (fun r => r.chatId == chat)).length ≤ 1) ∧
    (∀ p, get_pending_task st chat = some p →
      (parse_task_text sd (pyStrip text0) now).2 = none →
      handle_message sd now chat text0 tasks st = (Action.askDateAgain, st)) ∧
    (∀ p inst, get_pending_task st chat = some p →
      (parse_task_text sd (pyStrip text0) now).2 = some inst →
      handle_message sd now chat text0 tasks st =
        (Action.createTask p.title inst, clear_pending_task st p.id)) := by
  refine ⟨?_, ?_, ?_⟩
  · intro hlen
    cases hgp : get_pending_task st chat with
    | some p =>
      rw [handle_message_pending sd now chat text0 tasks st p hgp]
      cases hpt : (parse_task_text sd (pyStrip text0) now).2 with
      | none => exact hlen
      | some d =>
        dsimp only [clear_pending_task]
        have hsub : ((st.recs.filter (fun r => r.id != p.id)).filter
            (fun r => r.chatId == chat)).Sublist
            (st.recs.filter (fun r => r.chatId == chat)) :=
          (List.filter_sublist _).filter _
        exact le_trans hsub.length_le hlen
    | none =>
      have hnil := get_pending_task_none_filter st chat hgp
      unfold handle_message
      rw [hgp]
      dsimp only
      repeat' split
      all_goals simp [add_pending_task, List.filter_append, List.filter_cons, hnil]
  · intro p hp hnone
    rw [handle_message_pending sd now chat text0 tasks st p hp, hnone]
  · intro p inst hp hinst
    rw [handle_message_pending sd now chat text0 tasks st p hp, hinst]

/-- Claim C6 counterexample: with the draft Tez yaz. armed, the new task-like
no-date message ödev yap does NOT replace it - the bot re-asks for a date,
the store still holds Tez yaz., and the next date answer finalizes Tez yaz.
(the EARLIER draft), contradicting the claimed last-writer-wins replacement
and silent drop of the earlier draft. -/
theorem c6_single_slot_pending_cex :
    looks_like_task "ödev yap" = true ∧
    (parse_task_text sdEx "ödev yap" exNowB).2 = none ∧
    handle_message sdEx exNowB "c" "ödev yap" []
        (handle_message sdEx exNowA "c" "tez yaz" [] ⟨[], 0⟩).2 =
      (Action.askDateAgain, (handle_message sdEx exNowA "c" "tez yaz" [] ⟨[], 0⟩).2) ∧
    get_pending_task (handle_message sdEx exNowA "c" "tez yaz" [] ⟨[], 0⟩).2 "c" =
      some ⟨0, "c", "Tez yaz.", dtKey exNowA⟩ ∧
    (handle_message sdEx exNowC "c" "yarın" []
        (handle_message sdEx exNowB "c" "ödev yap" []
          (handle_message sdEx exNowA "c" "tez yaz" [] ⟨[], 0⟩).2).2).1 =
      Action.createTask "Tez yaz." exDue := by
  exact ⟨by decide, by decide, by decide, by decide, by decide⟩

/-- Witness for C6's amended statement: with the Tez yaz. draft armed, the
task-like message ödev yap leaves the store unchanged and re-asks. -/
theorem c6_single_slot_pending_witness :
    handle_message sdEx exNowB "c" "ödev yap" []
        (handle_message sdEx exNowA "c" "tez yaz" [] ⟨[], 0⟩).2 =
      (Action.askDateAgain, (handle_message sdEx exNowA "c" "tez yaz" [] ⟨[], 0⟩).2) :=
  (c6_single_slot_pending sdEx exNowB "c" "ödev yap" []
    (handle_message sdEx exNowA "c" "tez yaz" [] ⟨[], 0⟩).2).2.1
    ⟨0, "c", "Tez yaz.", dtKey exNowA⟩ (by decide) (by decide)

end RA


